import Mathlib

/-!
Verification development for the vanda single-page chat client
(src/web/app.js and the near-duplicate variant src/unnamed/part_000).

The JavaScript is shallowly embedded: JSON values become an inductive
type, JS strings become `List Char` where index arithmetic matters and
`String` elsewhere, truthiness and the `String(...)` coercion are modelled
explicitly, and statements that can raise a `TypeError` (property access
on `null`) return `Except Unit`.
-/

/-- JSON values, the shape of every backend payload after `JSON.parse`.
`obj` keeps fields in insertion order; `num` is restricted to integers
(no claim involves fractional numbers). -/
inductive Json where
  | str (s : String)
  | num (n : Int)
  | bool (b : Bool)
  | null
  | arr (elems : List Json)
  | obj (fields : List (String × Json))
deriving Repr

/-- JS truthiness of a JSON value: `""`, `0`, `false` and `null` are falsy,
arrays and objects are always truthy. -/
def truthy : Json → Bool
  | .str s => s ≠ ""
  | .num n => n ≠ 0
  | .bool b => b
  | .null => false
  | .arr _ => true
  | .obj _ => true

/-- Truthiness of an optional value; a missing field (`undefined`) is falsy. -/
def truthyO : Option Json → Bool
  | some v => truthy v
  | none => false

/-- First binding of a key in an object's field list (JS objects hold at most
one binding per key). -/
def lookupField : List (String × Json) → String → Option Json
  | [], _ => none
  | (k, v) :: rest, key => if k = key then some v else lookupField rest key

/-- Property read on a non-`null` base: objects look up the field, any other
base yields `undefined` (`none`).  Reads on `null` are modelled separately by
`jsGetField` because they throw. -/
def getFieldO (j : Json) (k : String) : Option Json :=
  match j with
  | .obj fs => lookupField fs k
  | _ => none

/-- Property read as executed by the JS engine: reading a property of `null`
throws a `TypeError` (`Except.error`), otherwise behaves like `getFieldO`. -/
def jsGetField (j : Json) (k : String) : Except Unit (Option Json) :=
  match j with
  | .null => .error ()
  | .obj fs => .ok (lookupField fs k)
  | _ => .ok none

mutual
/-- The JS `String(...)` coercion: objects print `[object Object]`, arrays
join their elements with commas. -/
def jsToString : Json → String
  | .str s => s
  | .num n => toString n
  | .bool b => cond b "true" "false"
  | .null => "null"
  | .arr xs => jsArrJoin xs
  | .obj _ => "[object Object]"

/-- `Array.prototype.toString`: elements joined with `","`; a `null` element
contributes the empty string. -/
def jsArrJoin : List Json → String
  | [] => ""
  | [x] => (match x with | .null => "" | v => jsToString v)
  | x :: rest => (match x with | .null => "" | v => jsToString v) ++ "," ++ jsArrJoin rest
end

/-- Coercion of a possibly-`undefined` value; `String(undefined)` is
`"undefined"` (only reachable behind truthiness guards in this code). -/
def jsToStringO : Option Json → String
  | some v => jsToString v
  | none => "undefined"

/-- `Object.keys(x).length`: field count for objects, element count for
arrays, character count for strings, zero for other primitives. -/
def numKeys : Json → Nat
  | .obj fs => fs.length
  | .arr xs => xs.length
  | .str s => s.length
  | _ => 0

mutual
/-- Model of the builtin `JSON.stringify(v)` (compact form; string escaping
is elided, which no claim depends on). -/
def jsonStringify : Json → String
  | .str s => "\"" ++ s ++ "\""
  | .num n => toString n
  | .bool b => cond b "true" "false"
  | .null => "null"
  | .arr xs => "[" ++ stringifyElems xs ++ "]"
  | .obj fs => "\x7b" ++ stringifyFields fs ++ "\x7d"

def stringifyElems : List Json → String
  | [] => ""
  | [x] => jsonStringify x
  | x :: rest => jsonStringify x ++ "," ++ stringifyElems rest

def stringifyFields : List (String × Json) → String
  | [] => ""
  | [(k, v)] => "\"" ++ k ++ "\":" ++ jsonStringify v
  | (k, v) :: rest => "\"" ++ k ++ "\":" ++ jsonStringify v ++ "," ++ stringifyFields rest
end

/-- Indentation used by `JSON.stringify(v, null, 2)`. -/
def ppIndent (depth : Nat) : String :=
  String.join (List.replicate depth "  ")

mutual
/-- Model of the builtin `JSON.stringify(v, null, 2)` (pretty form with
two-space indentation). -/
def ppJson : Nat → Json → String
  | _, .str s => "\"" ++ s ++ "\""
  | _, .num n => toString n
  | _, .bool b => cond b "true" "false"
  | _, .null => "null"
  | _, .arr [] => "[]"
  | d, .arr xs => "[\n" ++ ppElems (d + 1) xs ++ "\n" ++ ppIndent d ++ "]"
  | _, .obj [] => "\x7b\x7d"
  | d, .obj fs => "\x7b\n" ++ ppFields (d + 1) fs ++ "\n" ++ ppIndent d ++ "\x7d"

def ppElems : Nat → List Json → String
  | d, [] => ppIndent d
  | d, [x] => ppIndent d ++ ppJson d x
  | d, x :: rest => ppIndent d ++ ppJson d x ++ ",\n" ++ ppElems d rest

def ppFields : Nat → List (String × Json) → String
  | d, [] => ppIndent d
  | d, [(k, v)] => ppIndent d ++ "\"" ++ k ++ "\": " ++ ppJson d v
  | d, (k, v) :: rest => ppIndent d ++ "\"" ++ k ++ "\": " ++ ppJson d v ++ ",\n" ++ ppFields d rest
end

/-- `JSON.stringify(v, null, 2)` as used by `displayResponse`'s structural
fallback. -/
def jsonStringifyPretty (v : Json) : String := ppJson 0 v

-- ========================================================================
-- ResponseNormalizer: displayResponse text extraction (src/web/app.js
-- lines 398-451; identical extraction chain in src/unnamed/part_000).
-- ========================================================================

/-- Canonical post-normalization unit.  Mirrors what `displayResponse`
computes before rendering: the raw (unescaped) text, and the agent
name/avatar strings (`""` plays the role of "absent", exactly as in the
code, which initialises `agentName` to the empty string). -/
structure DisplayMessage where
  text : String
  agentName : String
  agentAvatar : String
deriving Repr, DecidableEq

/-- One element of a `messages` array, as mapped by
`msg => typeof msg === "string" ? msg : (msg.content || msg.text || msg.output || JSON.stringify(msg))`.
A `null` element throws (`msg.content` on `null`). -/
def msgPieceE (msg : Json) : Except Unit String :=
  match msg with
  | .str s => .ok s
  | .null => .error ()
  | _ =>
    if truthyO (getFieldO msg "content") then .ok (jsToStringO (getFieldO msg "content"))
    else if truthyO (getFieldO msg "text") then .ok (jsToStringO (getFieldO msg "text"))
    else if truthyO (getFieldO msg "output") then .ok (jsToStringO (getFieldO msg "output"))
    else .ok (jsonStringify msg)

/-- `result.messages.map(...).join("\n\n")`. -/
def msgsJoinE : List Json → Except Unit String
  | [] => .ok ""
  | [m] => msgPieceE m
  | m :: rest => do
      let p ← msgPieceE m
      let r ← msgsJoinE rest
      pure (p ++ "\n\n" ++ r)

/-- Steps (e)/(f) of the extraction chain: structural dump when the object
has at least one key, otherwise the placeholder.  No property access, so no
throw. -/
def extractTail2 (result : Json) : Json :=
  if numKeys result > 0 then .str (jsonStringifyPretty result)
  else .str "No response received"

/-- Step (d): the `messages` branch (`result.messages && Array.isArray(result.messages)`:
arrays are always truthy, so the guard holds exactly when the field is an
array), else fall through to `extractTail2`. -/
def extractStepMessages (result : Json) : Except Unit Json :=
  match getFieldO result "messages" with
  | some (.arr msgs) => (msgsJoinE msgs).map Json.str
  | _ => .ok (extractTail2 result)

/-- Step (c): `else if (result.response)`. -/
def extractStepResponse (result : Json) : Except Unit Json :=
  match getFieldO result "response" with
  | some v => if truthy v then .ok v else extractStepMessages result
  | none => extractStepMessages result

/-- Step (b): `else if (result.output)`. -/
def extractStepOutput (result : Json) : Except Unit Json :=
  match getFieldO result "output" with
  | some v => if truthy v then .ok v else extractStepResponse result
  | none => extractStepResponse result

/-- The `responseText` value computed by `displayResponse` (app.js lines
402-420).  A bare string is used verbatim; reading `.output` on `null`
throws a `TypeError`; otherwise run the `output`/`response`/`messages`/
keys-dump/placeholder chain. -/
def extractRaw (result : Json) : Except Unit Json :=
  match result with
  | .str s => .ok (.str s)
  | .null => .error ()
  | _ => extractStepOutput result

/-- `result && typeof result === "object"`: the guard under which agent
metadata is extracted (`null` is falsy, so it never reaches the field
reads). -/
def isObjectLike : Json → Bool
  | .obj _ => true
  | .arr _ => true
  | _ => false

/-- `result.agent ? String(result.agent) : ""` fallback. -/
def agentFallback (result : Json) : String :=
  if truthyO (getFieldO result "agent") then jsToStringO (getFieldO result "agent") else ""

/-- `result.agent_meta && result.agent_meta.name ? String(result.agent_meta.name)
: (result.agent ? String(result.agent) : "")`. -/
def agentNameOf (result : Json) : String :=
  match getFieldO result "agent_meta" with
  | some am =>
      if truthy am && truthyO (getFieldO am "name") then jsToStringO (getFieldO am "name")
      else agentFallback result
  | none => agentFallback result

/-- `result.agent_avatar ? String(result.agent_avatar) : (result.agent_meta &&
result.agent_meta.avatar_url ? String(result.agent_meta.avatar_url) : "")`. -/
def agentAvatarOf (result : Json) : String :=
  if truthyO (getFieldO result "agent_avatar") then jsToStringO (getFieldO result "agent_avatar")
  else
    match getFieldO result "agent_meta" with
    | some am =>
        if truthy am && truthyO (getFieldO am "avatar_url") then jsToStringO (getFieldO am "avatar_url")
        else ""
    | none => ""

/-- The `DisplayMessage` produced by one run of `displayResponse` on a single
payload (the pure part, before rendering and history effects). -/
def displayResponseMsg (result : Json) : Except Unit DisplayMessage := do
  let v ← extractRaw result
  pure { text := jsToString v
         agentName := if isObjectLike result then agentNameOf result else ""
         agentAvatar := if isObjectLike result then agentAvatarOf result else "" }

/-- `result.responses.forEach(resp => displayResponse(resp))` at the
`DisplayMessage` level: each element in order, stopping at a throw. -/
def mapDisplayE : List Json → Except Unit (List DisplayMessage)
  | [] => .ok []
  | r :: rs => do
      let m ← displayResponseMsg r
      let ms ← mapDisplayE rs
      pure (m :: ms)

/-- The normalizer over a whole payload (app.js lines 371-375): if
`result.responses` is an array, each element is displayed independently in
order, else the payload itself is displayed once.  Reading `.responses` on a
`null` payload throws. -/
def normalizePayload (result : Json) : Except Unit (List DisplayMessage) :=
  match result with
  | .null => .error ()
  | _ =>
    match getFieldO result "responses" with
    | some (.arr rs) => mapDisplayE rs
    | _ => (displayResponseMsg result).map (fun m => [m])

-- ========================================================================
-- Model of the builtin JSON.parse (fuel-bounded recursive descent; enough
-- of the grammar for the bodies the claims exercise — integers, strings
-- with simple escapes, arrays, objects, literals).  On any input it does
-- not recognise it returns `none`, which the callers treat exactly like a
-- JSON.parse exception.
-- ========================================================================

/-- Skip JSON whitespace. -/
def skipWs : List Char → List Char
  | c :: cs => if c = ' ' ∨ c = '\n' ∨ c = '\t' ∨ c = '\r' then skipWs cs else c :: cs
  | [] => []

/-- Decode one string-escape character. -/
def escMap (c : Char) : Option Char :=
  if c.toNat = 34 then some (Char.ofNat 34)
  else if c.toNat = 92 then some (Char.ofNat 92)
  else if c = '/' then some '/'
  else if c = 'n' then some '\n'
  else if c = 't' then some '\t'
  else if c = 'r' then some '\r'
  else none

/-- Scan the characters of a string literal (opening quote already
consumed), returning the content and the remainder. -/
def parseStrChars : List Char → Option (List Char × List Char)
  | [] => none
  | c :: cs =>
    if c.toNat = 34 then some ([], cs)
    else if c.toNat = 92 then
      match cs with
      | e :: cs2 =>
        match escMap e with
        | some ch => (parseStrChars cs2).map (fun r => (ch :: r.1, r.2))
        | none => none
      | [] => none
    else (parseStrChars cs).map (fun r => (c :: r.1, r.2))

/-- Greedily read a digit run as a natural number. -/
def parseDigits : List Char → Nat → Option (Nat × List Char)
  | c :: cs, acc => if c.isDigit then
      match parseDigits cs (acc * 10 + (c.toNat - 48)) with
      | some r => some r
      | none => some (acc * 10 + (c.toNat - 48), cs)
    else none
  | [], _ => none

/-- Read an optionally-signed integer literal. -/
def parseIntLit : List Char → Option (Int × List Char)
  | '-' :: cs =>
    match cs with
    | c :: _ => if c.isDigit then (parseDigits cs 0).map (fun r => (-(r.1 : Int), r.2)) else none
    | [] => none
  | cs@(c :: _) => if c.isDigit then (parseDigits cs 0).map (fun r => ((r.1 : Int), r.2)) else none
  | [] => none

/-- Match an exact keyword. -/
def parseKeyword : List Char → List Char → Option (List Char)
  | [], cs => some cs
  | k :: ks, c :: cs => if c = k then parseKeyword ks cs else none
  | _ :: _, [] => none

/-- Prepend a member parsed earlier in the document to the members parsed
after it, JS-style: a duplicated key keeps the earliest position but takes
the latest value. -/
def objInsert (fs : List (String × Json)) (k : String) (v : Json) : List (String × Json) :=
  match lookupField fs k with
  | some v2 => (k, v2) :: fs.filter (fun f => ¬(f.1 = k))
  | none => (k, v) :: fs

mutual
/-- Parse one JSON value; `fuel` bounds the recursion. -/
def parseVal : Nat → List Char → Option (Json × List Char)
  | 0, _ => none
  | fuel + 1, cs =>
    match skipWs cs with
    | [] => none
    | c :: rest =>
      if c.toNat = 34 then (parseStrChars rest).map (fun r => (.str (String.mk r.1), r.2))
      else if c = 't' then (parseKeyword ['r', 'u', 'e'] rest).map (fun r => (.bool true, r))
      else if c = 'f' then (parseKeyword ['a', 'l', 's', 'e'] rest).map (fun r => (.bool false, r))
      else if c = 'n' then (parseKeyword ['u', 'l', 'l'] rest).map (fun r => (.null, r))
      else if c = '[' then
        match skipWs rest with
        | ']' :: rest2 => some (.arr [], rest2)
        | rest2 => (parseElems fuel rest2).map (fun r => (.arr r.1, r.2))
      else if c.toNat = 123 then
        match skipWs rest with
        | b :: rest2 =>
            if b.toNat = 125 then some (.obj [], rest2)
            else (parseMembers fuel (b :: rest2)).map (fun r => (.obj r.1, r.2))
        | [] => none
      else (parseIntLit (c :: rest)).map (fun r => (.num r.1, r.2))

/-- Parse the elements of a non-empty array, up to and including `]`. -/
def parseElems : Nat → List Char → Option (List Json × List Char)
  | 0, _ => none
  | fuel + 1, cs => do
    let (v, cs2) ← parseVal fuel cs
    match skipWs cs2 with
    | ',' :: cs3 => (parseElems fuel cs3).map (fun r => (v :: r.1, r.2))
    | ']' :: cs3 => some ([v], cs3)
    | _ => none

/-- Parse the members of a non-empty object, up to and including the
closing brace. -/
def parseMembers : Nat → List Char → Option (List (String × Json) × List Char)
  | 0, _ => none
  | fuel + 1, cs =>
    match skipWs cs with
    | c :: rest =>
      if c.toNat = 34 then do
        let (kcs, cs2) ← parseStrChars rest
        match skipWs cs2 with
        | ':' :: cs3 => do
          let (v, cs4) ← parseVal fuel cs3
          match skipWs cs4 with
          | ',' :: cs5 =>
              (parseMembers fuel cs5).map (fun r => (objInsert r.1 (String.mk kcs) v, r.2))
          | d :: cs5 =>
              if d.toNat = 125 then some ([(String.mk kcs, v)], cs5) else none
          | [] => none
        | _ => none
      else none
    | [] => none
end

/-- `JSON.parse`: parse a complete JSON document; any trailing non-space
input is a syntax error. -/
def jsonParse (s : String) : Option Json :=
  match parseVal (2 * s.length + 4) s.toList with
  | some (j, rest) => if (skipWs rest).isEmpty then some j else none
  | none => none

-- ========================================================================
-- Rendering utilities (escapeHtml, newline conversion).
-- ========================================================================

/-- Replace every occurrence of the character with code `code` by `sub`
(model of `String.prototype.replace` with a single-character global
regex). -/
def replaceChar (s : String) (code : Nat) (sub : String) : String :=
  String.join (s.toList.map (fun c => if c.toNat = code then sub else String.singleton c))

/-- `escapeHtml` (app.js lines 511-518): ampersand, angle brackets, double
quote and apostrophe, in this order. -/
def escapeHtml (value : String) : String :=
  replaceChar (replaceChar (replaceChar (replaceChar (replaceChar value 38 "&amp;") 60 "&lt;")
    62 "&gt;") 34 "&quot;") 39 "&#039;"

-- ========================================================================
-- HistoryBuffer and ConversationController state
-- (src/web/app.js sendQuestion lines 320-396, displayResponse lines
-- 398-451; src/unnamed/part_000 sendQuestion lines 341-469).
-- ========================================================================

/-- One conversation turn (`{ role, text }`). -/
structure Turn where
  role : String
  text : String
deriving Repr, DecidableEq

/-- `CONFIG.MAX_CONVERSATION_LENGTH`. -/
def MAX_CONVERSATION_LENGTH : Nat := 10

/-- `state.conversation.push(turn)` followed by the trim
`if (length > MAX) splice(0, length - MAX)` — the sequence executed after
every single append, both in `sendQuestion` (user turn) and in
`displayResponse` (assistant turn). -/
def pushTurn (conv : List Turn) (t : Turn) : List Turn :=
  let c := conv ++ [t]
  if c.length > MAX_CONVERSATION_LENGTH then c.drop (c.length - MAX_CONVERSATION_LENGTH) else c

/-- Model of `String.prototype.trim`: strip leading and trailing
whitespace (structurally recursive, unlike `String.trim`, so that concrete
states evaluate inside the kernel). -/
def jsTrim (s : String) : String :=
  String.mk (((s.toList.dropWhile Char.isWhitespace).reverse.dropWhile
    Char.isWhitespace).reverse)

/-- One rendered message bubble (`addMessage(content, role, useHtml)`). -/
structure ChatEntry where
  role : String
  content : String
  useHtml : Bool
deriving Repr, DecidableEq

/-- The mutable state touched by one send cycle: the history buffer, the
message log, the input field, the submit control and whether the loading
placeholder element is currently in the DOM. -/
structure AppState where
  conversation : List Turn
  chatLog : List ChatEntry
  inputValue : String
  sendBtnDisabled : Bool
  loadingShown : Bool
deriving Repr, DecidableEq

/-- `addMessage`: append a bubble to the chat area. -/
def addMessage (st : AppState) (content role : String) (useHtml : Bool) : AppState :=
  { st with chatLog := st.chatLog ++ [⟨role, content, useHtml⟩] }

/-- Outcome of the `fetch(CONFIG.ENDPOINT, ...)` call: either the promise
rejects (transport failure) or a response arrives with `ok`
(= 2xx), `status`, `statusText` and the body text. -/
inductive FetchOutcome where
  | netError (message : String)
  | response (ok : Bool) (status : Nat) (statusText : String) (bodyText : String)
deriving Repr, DecidableEq

/-- The agent header markup built by app.js `displayResponse` lines
423-438. -/
def headerHtmlApp (agentName avatarUrl : String) : String :=
  if agentName ≠ "" then
    (if avatarUrl ≠ "" then
        "<img class=\"agent-avatar\" src=\"" ++ avatarUrl ++ "\" alt=\"" ++ agentName ++ "\" />"
      else "")
      |> (fun avatarHtml =>
        "<div class=\"agent-header\">" ++ avatarHtml ++ "<span>" ++ agentName ++ "</span></div>")
  else ""

/-- One run of app.js `displayResponse` with its side effects: extract the
text (which throws on a `null` property base, before any effect), render
the bubble, and append the assistant turn to the history (with trim) when
the extracted value is truthy. -/
def displayResponseState (st : AppState) (result : Json) : Except Unit AppState := do
  let v ← extractRaw result
  let agentName := if isObjectLike result then agentNameOf result else ""
  let avatarUrl := if isObjectLike result then agentAvatarOf result else ""
  let headerHtml := headerHtmlApp agentName avatarUrl
  let safeText := replaceChar (escapeHtml (jsToString v)) 10 "<br />"
  let st := addMessage st (headerHtml ++ safeText) "assistant" true
  if truthy v then
    let agentPrefix := if agentName ≠ "" then "(" ++ agentName ++ ") " else ""
    pure { st with conversation := pushTurn st.conversation ⟨"assistant", agentPrefix ++ jsToString v⟩ }
  else
    pure st

/-- `result.responses.forEach(resp => displayResponse(resp))`: sequential,
stopping at the first throw with all earlier effects retained. -/
def runDisplayList : AppState → List Json → AppState × Bool
  | st, [] => (st, false)
  | st, r :: rs =>
    match displayResponseState st r with
    | .ok st2 => runDisplayList st2 rs
    | .error _ => (st, true)

/-- `errorData.detail || errorData.message || JSON.stringify(errorData)`
(app.js lines 381-382), for a non-`null` parsed body. -/
def errorBodyText (d : Json) : String :=
  if truthyO (getFieldO d "detail") then jsToStringO (getFieldO d "detail")
  else if truthyO (getFieldO d "message") then jsToStringO (getFieldO d "message")
  else jsonStringify d

/-- The placeholder text of the message shown by app.js's `catch` block;
the engine-specific `TypeError` message for a property read on `null`. -/
def typeErrorMessage : String := "Cannot read properties of null"

/-- The trailing hint appended to the transport/`catch` error bubble. -/
def mkSureHint : String := ". Make sure the business team is running (python run.py)"

/-- `result = bodyText ? JSON.parse(bodyText) : {}` guarded by the inner
try: a parse failure is recovered as `{ output: bodyText }` (app.js lines
361-366). -/
def parseBodyApp (bodyText : String) : Json :=
  if bodyText = "" then Json.obj []
  else
    match jsonParse bodyText with
    | some j => j
    | none => Json.obj [("output", Json.str bodyText)]

/-- The success-branch dispatch (app.js lines 370-375) together with the
enclosing catch: a `null` payload (or `null` inside `responses`) raises a
`TypeError` at a property read, which the catch renders as an error bubble
(the loading element was already removed; the second `removeMessage` is a
no-op on the detached node). -/
def appDispatch (st : AppState) (result : Json) : AppState :=
  match result with
  | .null => addMessage st ("Error: " ++ typeErrorMessage ++ mkSureHint) "assistant" false
  | _ =>
      match getFieldO result "responses" with
      | some (.arr rs) =>
          match runDisplayList st rs with
          | (st2, false) => st2
          | (st2, true) =>
              addMessage st2 ("Error: " ++ typeErrorMessage ++ mkSureHint) "assistant" false
      | _ =>
          match displayResponseState st result with
          | .ok st2 => st2
          | .error _ =>
              addMessage st ("Error: " ++ typeErrorMessage ++ mkSureHint) "assistant" false

/-- The error text of the non-success branch (app.js lines 379-385):
`errorData.detail` sits inside the same inner try as the `JSON.parse`, so
a `null` body falls into the same catch as a parse failure and yields
`bodyText || response.statusText`. -/
def appErrorText (statusText bodyText : String) : String :=
  match jsonParse bodyText with
  | some .null => if bodyText ≠ "" then bodyText else statusText
  | some j => errorBodyText j
  | none => if bodyText ≠ "" then bodyText else statusText

/-- app.js `sendQuestion` (lines 320-396) as a state transformer over one
fetch outcome.  The `try`/`catch`/`finally` structure means every path
re-enables the submit button at the end; a thrown `TypeError` inside the
success branch lands in the same `catch` as a transport failure. -/
def sendQuestionApp (st : AppState) (outcome : FetchOutcome) : AppState :=
  let question := jsTrim st.inputValue
  if question = "" then st
  else
    let st := addMessage st question "user" false
    let st := { st with conversation := pushTurn st.conversation ⟨"user", question⟩ }
    let st := { st with inputValue := "" }
    let st := { st with loadingShown := true, sendBtnDisabled := true }
    let st :=
      match outcome with
      | .netError emsg =>
          -- catch block: removeMessage(loadingEl); addMessage(error bubble)
          let st := { st with loadingShown := false }
          addMessage st ("Error: " ++ emsg ++ mkSureHint) "assistant" false
      | .response ok status statusText bodyText =>
          if ok then
            appDispatch { st with loadingShown := false } (parseBodyApp bodyText)
          else
            let st := { st with loadingShown := false }
            let errorText := appErrorText statusText bodyText
            addMessage st
              ("Error: " ++ toString status ++ " - "
                ++ (if errorText ≠ "" then errorText else "Unknown error"))
              "assistant" false
    -- finally
    { st with sendBtnDisabled := false }

-- ========================================================================
-- The src/unnamed/part_000 variant of sendQuestion/displayResponse
-- (lines 341-469): same extraction chain, a role badge in the header, no
-- try/catch around the fetch, and an error bubble with the status only.
-- ========================================================================

/-- part_000 `displayResponse` header: avatar + name + optional role badge,
or a bare role badge when no agent name is available. -/
def headerHtmlStream (agentName avatarUrl roleInfo : String) : String :=
  if agentName ≠ "" then
    (if avatarUrl ≠ "" then
        "<img class=\"agent-avatar\" src=\"" ++ avatarUrl ++ "\" alt=\"" ++ agentName ++ "\" />"
      else "")
      |> (fun avatarHtml =>
        "<div class=\"agent-header\">" ++ avatarHtml ++ "<span>" ++ agentName ++ "</span>"
          ++ roleInfo ++ "</div>")
  else if roleInfo ≠ "" then "<div class=\"agent-header\">" ++ roleInfo ++ "</div>"
  else ""

/-- One run of part_000's nested `displayResponse` (lines 405-469): as the
app.js version, plus the `role` badge (`const role = result.role || ""`). -/
def displayRespStreamState (st : AppState) (result : Json) : Except Unit AppState := do
  let v ← extractRaw result
  let agentName := if isObjectLike result then agentNameOf result else ""
  let roleV : Option Json :=
    if isObjectLike result then
      match getFieldO result "role" with
      | some rv => if truthy rv then some rv else none
      | none => none
    else none
  let roleInfo :=
    match roleV with
    | some rv =>
        "<span class=\"role-badge " ++ jsToString rv ++ "\">" ++ jsToString rv ++ "</span>"
    | none => ""
  let avatarUrl := if isObjectLike result then agentAvatarOf result else ""
  let headerHtml := headerHtmlStream agentName avatarUrl roleInfo
  let safeText := replaceChar (escapeHtml (jsToString v)) 10 "<br />"
  let st := addMessage st (headerHtml ++ safeText) "assistant" true
  if truthy v then
    let agentPrefix := if agentName ≠ "" then "(" ++ agentName ++ ") " else ""
    pure { st with conversation := pushTurn st.conversation ⟨"assistant", agentPrefix ++ jsToString v⟩ }
  else
    pure st

/-- part_000's `result.responses.forEach(r => displayResponse(r))`. -/
def runDisplayListStream : AppState → List Json → AppState × Bool
  | st, [] => (st, false)
  | st, r :: rs =>
    match displayRespStreamState st r with
    | .ok st2 => runDisplayListStream st2 rs
    | .error _ => (st, true)

/-- part_000's `result = JSON.parse(responseText)` with the catch
`result = { output: responseText }` (no empty-body special case in this
variant). -/
def parseBodyStream (bodyText : String) : Json :=
  match jsonParse bodyText with
  | some j => j
  | none => Json.obj [("output", Json.str bodyText)]

/-- part_000's success-branch dispatch: as app.js, but with NO enclosing
catch — a `TypeError` propagates (second component `true`), skipping the
`sendBtn.disabled = false` that only runs at the end of the success
path. -/
def streamDispatch (st : AppState) (result : Json) : AppState × Bool :=
  match result with
  | .null => (st, true)
  | _ =>
      match getFieldO result "responses" with
      | some (.arr rs) =>
          match runDisplayListStream st rs with
          | (st2, false) => ({ st2 with sendBtnDisabled := false }, false)
          | (st2, true) => (st2, true)
      | _ =>
          match displayRespStreamState st result with
          | .ok st2 => ({ st2 with sendBtnDisabled := false }, false)
          | .error _ => (st, true)

/-- part_000 `sendQuestion` (lines 341-403).  There is no try/catch: a
rejected fetch (or a `TypeError` in the success branch) propagates out of
the controller; the returned `Bool` is `true` when that happens, and the
paired state is the state at the moment of the throw — with the loading
placeholder still present and the submit button still disabled on the
transport-failure path. -/
def sendQuestionStream (st : AppState) (outcome : FetchOutcome) : AppState × Bool :=
  let question := jsTrim st.inputValue
  if question = "" then (st, false)
  else
    let st := addMessage st question "user" false
    let st := { st with conversation := pushTurn st.conversation ⟨"user", question⟩ }
    let st := { st with inputValue := "" }
    let st := { st with loadingShown := true, sendBtnDisabled := true }
    match outcome with
    | .netError _ => (st, true)
    | .response ok status _statusText bodyText =>
        if ok then
          streamDispatch { st with loadingShown := false } (parseBodyStream bodyText)
        else
          let st := { st with loadingShown := false }
          let st := addMessage st ("Error: " ++ toString status) "assistant" false
          ({ st with sendBtnDisabled := false }, false)

-- ========================================================================
-- MentionEngine (src/web/app.js handleInputChange lines 162-193,
-- handleKeyDown lines 286-314, selectAgent lines 255-280; identical in
-- src/unnamed/part_000).  JS strings are embedded as `List Char`
-- (one entry per UTF-16 position).
-- ========================================================================

/-- Roster entry. -/
structure Agent where
  key : String
  name : String
  role : String
  avatar : String
deriving Repr, DecidableEq

/-- The greatest index `i ≤ bound` with `cs[i] = c`, if any.  This is
`String.prototype.lastIndexOf(c, bound)` after clamping (`none` plays the
role of `-1`). -/
def lastIdxLe (cs : List Char) (c : Char) : Nat → Option Nat
  | 0 => if cs.get? 0 = some c then some 0 else none
  | n + 1 => if cs.get? (n + 1) = some c then some (n + 1) else lastIdxLe cs c n

/-- `text.lastIndexOf(c, fromIndex)`: a negative `fromIndex` is clamped to
0 (so position 0 is still examined), a large one searches the whole
string. -/
def jsLastIndexOf (cs : List Char) (c : Char) (fromIdx : Int) : Option Nat :=
  lastIdxLe cs c fromIdx.toNat

/-- `text.substring(a, b)`: both arguments clamped into `[0, length]`, then
swapped if start exceeds end. -/
def jsSubstring (cs : List Char) (a b : Int) : List Char :=
  let s := min a.toNat cs.length
  let e := min b.toNat cs.length
  (cs.take (max s e)).drop (min s e)

/-- Per-character lowercasing, the model of `String.prototype.toLowerCase`. -/
def jsToLower (cs : List Char) : List Char := cs.map Char.toLower

/-- `needle` occurs contiguously inside `hay` (`String.prototype.includes`). -/
def startsWithL : List Char → List Char → Bool
  | [], _ => true
  | _ :: _, [] => false
  | a :: as, b :: bs => a = b && startsWithL as bs

/-- `hay.includes(needle)` : some suffix of `hay` starts with `needle`. -/
def containsL (needle : List Char) : List Char → Bool
  | [] => startsWithL needle []
  | c :: t => startsWithL needle (c :: t) || containsL needle t

/-- The roster filter of `handleInputChange` (lines 183-186):
`state.agents.filter(a => a.name.toLowerCase().includes(m) || a.key.toLowerCase().includes(m))`
where `m` is the already-lowercased current mention. -/
def filterAgents (agents : List Agent) (currentMention : List Char) : List Agent :=
  agents.filter (fun a =>
    containsL currentMention (jsToLower a.name.toList) ||
      containsL currentMention (jsToLower a.key.toList))

/-- The suggestion state `handleInputChange` leaves behind: either closed,
or active with the lowercased query and the filtered (non-empty) match
list. -/
inductive MentionState where
  | closed
  | active (query : List Char) (found : List Agent)
deriving Repr, DecidableEq

/-- `handleInputChange` (lines 162-193): find the nearest `"@"` at or
before the cursor, reject the context when the span up to the cursor holds
a space or newline, otherwise filter the roster by the lowercased span;
close when nothing matches. -/
def handleInputChange (text : List Char) (cursorPos : Nat) (agents : List Agent) : MentionState :=
  match jsLastIndexOf text '@' ((cursorPos : Int) - 1) with
  | none => .closed
  | some atIndex =>
      let afterAt := jsSubstring text ((atIndex : Int) + 1) (cursorPos : Int)
      if afterAt.contains ' ' || afterAt.contains '\n' then .closed
      else
        let currentMention := jsToLower afterAt
        let filtered := filterAgents agents currentMention
        if filtered.isEmpty then .closed else .active currentMention filtered

/-- Arrow-key navigation over the suggestion list (`handleKeyDown` lines
293-300): `down` is `min(i + 1, items.length - 1)`, `up` is
`max(i - 1, -1)`. -/
inductive NavDir where
  | down
  | up
deriving Repr, DecidableEq

/-- One arrow-key step on `state.selectedSuggestionIndex`. -/
def navigateStep (itemCount : Nat) (dir : NavDir) (i : Int) : Int :=
  match dir with
  | .down => min (i + 1) ((itemCount : Int) - 1)
  | .up => max (i - 1) (-1)

/-- `selectAgent` (lines 255-280).  `active` is
`elements.agentSuggestions.classList.contains("active")`; in autocomplete
mode the anchor is `text.lastIndexOf("@")` over the WHOLE text, and the
cursor lands after the inserted trailing space; in append mode the mention
is appended at the end (with a separating space when needed).  Returns the
new text and cursor position. -/
def selectAgent (active : Bool) (text : List Char) (selectionStart : Nat) (name : List Char) :
    List Char × Nat :=
  if active then
    match jsLastIndexOf text '@' (text.length : Int) with
    | none => (text, selectionStart)
    | some atIndex =>
        let beforeAt := jsSubstring text 0 (atIndex : Int)
        let afterCursor := jsSubstring text (selectionStart : Int) (text.length : Int)
        (beforeAt ++ '@' :: name ++ ' ' :: afterCursor, beforeAt.length + name.length + 2)
  else
    let needsSpace := text ≠ [] && text.getLast? ≠ some ' '
    let newText := text ++ (if needsSpace then [' '] else []) ++ '@' :: name ++ [' ']
    (newText, newText.length)

/-- Shape test used to state the precedence claims: is the payload a bare
string? -/
def isStrB : Json → Bool
  | .str _ => true
  | _ => false

/-- Shape test used to state the precedence claims: does the payload carry
an array-valued `messages` field? -/
def isMsgsArr (p : Json) : Bool :=
  match getFieldO p "messages" with
  | some (.arr _) => true
  | _ => false

/-- Shape test: is the value `null`? -/
def isNullB : Json → Bool
  | .null => true
  | _ => false

/-- The per-element text of the `messages` branch, as the spec states it
(string verbatim, else `content`, then `text`, then `output`, else a
structural dump), total on non-`null` elements. -/
def msgPieceSpec (msg : Json) : String :=
  match msg with
  | .str s => s
  | _ =>
    if truthyO (getFieldO msg "content") then jsToStringO (getFieldO msg "content")
    else if truthyO (getFieldO msg "text") then jsToStringO (getFieldO msg "text")
    else if truthyO (getFieldO msg "output") then jsToStringO (getFieldO msg "output")
    else jsonStringify msg

/-- Join a list of strings with a separator between consecutive elements
(the meaning of `Array.prototype.join`, used to state the claim about the
`messages` branch). -/
def joinWith (sep : String) : List String → String
  | [] => ""
  | [s] => s
  | s :: rest => s ++ sep ++ joinWith sep rest

-- ========================================================================
-- Supporting lemmas
-- ========================================================================

theorem pushTurn_eq_drop (conv : List Turn) (t : Turn) :
    pushTurn conv t = (conv ++ [t]).drop ((conv.length + 1) - MAX_CONVERSATION_LENGTH) := by
  simp only [pushTurn]
  split
  · simp
  · next h =>
      have h0 : conv.length + 1 - MAX_CONVERSATION_LENGTH = 0 := by
        simp only [List.length_append, List.length_singleton] at h
        omega
      rw [h0, List.drop_zero]

theorem pushTurn_length_le (conv : List Turn) (t : Turn) :
    (pushTurn conv t).length ≤ MAX_CONVERSATION_LENGTH := by
  rw [pushTurn_eq_drop, List.length_drop]
  simp only [List.length_append, List.length_singleton]
  have : 1 ≤ MAX_CONVERSATION_LENGTH := by simp [MAX_CONVERSATION_LENGTH]
  omega

theorem foldl_pushTurn (ts : List Turn) :
    ∀ init : List Turn, init.length ≤ MAX_CONVERSATION_LENGTH →
      ts.foldl pushTurn init =
        (init ++ ts).drop ((init.length + ts.length) - MAX_CONVERSATION_LENGTH) := by
  induction ts with
  | nil =>
      intro init h
      simp [Nat.sub_eq_zero_of_le h]
  | cons t rest ih =>
      intro init _hinit
      rw [List.foldl_cons, ih _ (pushTurn_length_le init t), pushTurn_eq_drop]
      have hd : (init.length + 1) - MAX_CONVERSATION_LENGTH ≤ (init ++ [t]).length := by
        simp only [List.length_append, List.length_singleton]
        omega
      have e1 : ((init ++ [t]) ++ rest).drop ((init.length + 1) - MAX_CONVERSATION_LENGTH)
          = ((init ++ [t]).drop ((init.length + 1) - MAX_CONVERSATION_LENGTH)) ++ rest := by
        rw [List.drop_append_eq_append_drop, Nat.sub_eq_zero_of_le hd, List.drop_zero]
      simp only [List.length_drop, List.length_append, List.length_singleton]
      rw [← e1, List.drop_drop, List.append_assoc, List.singleton_append]
      congr 1
      simp only [List.length_cons]
      omega

-- ========================================================================
-- C3 — HistoryBuffer trimming
-- ========================================================================

/-- C3: appending N > `MAX_CONVERSATION_LENGTH` (= 10) turns to an
initially empty history leaves exactly the 10 most recently appended turns
in their original relative order (the buffer is the suffix obtained by
dropping the oldest N − 10 from the front), and because the trim runs
after every single append, the length never exceeds 10 after any prefix of
the appends. -/
theorem c3_history_trim (ts : List Turn) (h : ts.length > MAX_CONVERSATION_LENGTH) :
    ts.foldl pushTurn [] = ts.drop (ts.length - MAX_CONVERSATION_LENGTH) ∧
    (ts.foldl pushTurn []).length = MAX_CONVERSATION_LENGTH ∧
    ∀ n : Nat, ((ts.take n).foldl pushTurn []).length ≤ MAX_CONVERSATION_LENGTH := by
  have hmain := foldl_pushTurn ts [] (by simp)
  simp only [List.nil_append, List.length_nil, Nat.zero_add] at hmain
  refine ⟨hmain, ?_, ?_⟩
  · rw [hmain, List.length_drop]
    omega
  · intro n
    have hp := foldl_pushTurn (ts.take n) [] (by simp)
    simp only [List.nil_append, List.length_nil, Nat.zero_add] at hp
    rw [hp, List.length_drop]
    omega

/-- Witness for C3 at a concrete sequence of 11 appends. -/
theorem c3_history_trim_witness :
    ((List.range 11).map (fun i => (⟨"user", toString i⟩ : Turn))).length
        > MAX_CONVERSATION_LENGTH ∧
    ((List.range 11).map (fun i => (⟨"user", toString i⟩ : Turn))).foldl pushTurn []
      = ((List.range 11).map (fun i => (⟨"user", toString i⟩ : Turn))).drop 1 :=
  ⟨by decide, by
    have h1 :=
      (c3_history_trim ((List.range 11).map (fun i => (⟨"user", toString i⟩ : Turn)))
        (by decide)).1
    simpa [MAX_CONVERSATION_LENGTH] using h1⟩

theorem startsWithL_iff (p : List Char) : ∀ l : List Char, startsWithL p l = true ↔ p <+: l := by
  induction p with
  | nil => intro l; simp [startsWithL]
  | cons a as ih =>
      intro l
      cases l with
      | nil => simp [startsWithL]
      | cons b bs =>
          simp only [startsWithL, Bool.and_eq_true, decide_eq_true_eq, List.cons_prefix_cons]
          exact and_congr Iff.rfl (ih bs)

theorem containsL_iff (p : List Char) : ∀ l : List Char, containsL p l = true ↔ p <:+: l := by
  intro l
  induction l with
  | nil =>
      simp only [containsL, startsWithL_iff, List.prefix_nil, List.infix_nil]
  | cons c t ih =>
      simp only [containsL, Bool.or_eq_true, startsWithL_iff, ih, List.infix_cons_iff]

theorem containsL_nil (l : List Char) : containsL [] l = true := by
  cases l <;> simp [containsL, startsWithL]

-- ========================================================================
-- C7 — roster filtering
-- ========================================================================

/-- C7: for every roster and query, the suggestion filter keeps exactly the
agents whose lowercased name or lowercased key contains the lowercased
query as a contiguous substring; it is a plain `filter`, hence a sublist of
the roster (original order, no re-ranking), and the empty query keeps the
whole roster. -/
theorem c7_filter_exact (agents : List Agent) (q : List Char) :
    List.Sublist (filterAgents agents (jsToLower q)) agents ∧
    (∀ a : Agent,
        a ∈ filterAgents agents (jsToLower q) ↔
          a ∈ agents ∧
            (jsToLower q <:+: jsToLower a.name.toList ∨
              jsToLower q <:+: jsToLower a.key.toList)) ∧
    filterAgents agents [] = agents := by
  refine ⟨List.filter_sublist _, ?_, ?_⟩
  · intro a
    simp only [filterAgents, List.mem_filter, Bool.or_eq_true, containsL_iff]
  · rw [filterAgents]
    apply List.filter_eq_self.mpr
    intro a _
    simp [containsL_nil]

-- ========================================================================
-- C8 — arrow-key navigation stays clamped
-- ========================================================================

/-- C8: a single navigation step preserves `-1 ≤ i ≤ itemCount - 1`
(down clamps at `itemCount - 1`, up clamps at `-1`), and therefore any
finite sequence of consecutive steps starting from the fresh `-1` stays in
that interval — no wraparound for any list length (including 0). -/
theorem c8_navigate_clamped (itemCount : Nat) (dirs : List NavDir) :
    (∀ (d : NavDir) (i : Int), -1 ≤ i → i ≤ (itemCount : Int) - 1 →
        -1 ≤ navigateStep itemCount d i ∧ navigateStep itemCount d i ≤ (itemCount : Int) - 1) ∧
    -1 ≤ dirs.foldl (fun i d => navigateStep itemCount d i) (-1) ∧
    dirs.foldl (fun i d => navigateStep itemCount d i) (-1) ≤ (itemCount : Int) - 1 := by
  have step : ∀ (d : NavDir) (i : Int), -1 ≤ i → i ≤ (itemCount : Int) - 1 →
      -1 ≤ navigateStep itemCount d i ∧ navigateStep itemCount d i ≤ (itemCount : Int) - 1 := by
    intro d i h1 h2
    cases d <;> simp only [navigateStep] <;> constructor <;> omega
  have fold : ∀ (ds : List NavDir) (i : Int), -1 ≤ i → i ≤ (itemCount : Int) - 1 →
      -1 ≤ ds.foldl (fun i d => navigateStep itemCount d i) i ∧
        ds.foldl (fun i d => navigateStep itemCount d i) i ≤ (itemCount : Int) - 1 := by
    intro ds
    induction ds with
    | nil => intro i h1 h2; exact ⟨h1, h2⟩
    | cons d rest ih =>
        intro i h1 h2
        rw [List.foldl_cons]
        exact ih _ (step d i h1 h2).1 (step d i h1 h2).2
  exact ⟨step, (fold dirs (-1) le_rfl (by omega)).1, (fold dirs (-1) le_rfl (by omega)).2⟩

/-- Witness for C8: one concrete clamped step. -/
theorem c8_navigate_clamped_witness :
    -1 ≤ navigateStep 3 NavDir.down 2 ∧ navigateStep 3 NavDir.down 2 ≤ (3 : Int) - 1 :=
  (c8_navigate_clamped 3 []).1 NavDir.down 2 (by decide) (by decide)

theorem getFieldO_eq_some (p : Json) (k : String) (v : Json) (h : getFieldO p k = some v) :
    ∃ fs, p = .obj fs := by
  cases p <;> simp [getFieldO] at h ⊢

theorem mapDisplayE_ok (rs : List Json) (ms : List DisplayMessage)
    (hall : List.Forall₂ (fun r m => displayResponseMsg r = .ok m) rs ms) :
    mapDisplayE rs = .ok ms := by
  induction hall with
  | nil => rfl
  | cons h1 _ ih =>
      simp only [mapDisplayE, h1, ih, bind, Except.bind, pure, Except.pure]

-- ========================================================================
-- C5 — responses arrays normalize element-wise
-- ========================================================================

/-- C5: when the top-level payload carries an array-valued `responses`
field, normalization is exactly the element-wise single-payload
normalization, concatenated in array order: whenever each element `rᵢ`
singly normalizes to the message `mᵢ`, the whole payload normalizes to
`[m₁, …, mₙ]`. -/
theorem c5_responses_concat (fs : List (String × Json)) (rs : List Json)
    (ms : List DisplayMessage)
    (hresp : lookupField fs "responses" = some (.arr rs))
    (hall : List.Forall₂ (fun r m => displayResponseMsg r = .ok m) rs ms) :
    normalizePayload (.obj fs) = .ok ms := by
  have hget : getFieldO (Json.obj fs) "responses" = some (.arr rs) := by
    simpa [getFieldO] using hresp
  simp only [normalizePayload, hget]
  exact mapDisplayE_ok rs ms hall

/-- Witness for C5: `{responses: [A, B]}` with a bare-string `A` and an
object `B` carrying `output`/`agent` fields. -/
theorem c5_responses_concat_witness :
    normalizePayload
        (.obj [("responses",
          .arr [.str "a", .obj [("output", .str "b"), ("agent", .str "Bob")]])])
      = .ok [⟨"a", "", ""⟩, ⟨"b", "Bob", ""⟩] :=
  c5_responses_concat _ _ _ rfl (by
    refine List.Forall₂.cons rfl (List.Forall₂.cons rfl List.Forall₂.nil))

-- ========================================================================
-- C10 — truthiness, not presence, drives field checks
-- ========================================================================

/-- C10: the `output`/`response` checks are truthiness checks, so an
empty-string field behaves exactly as an absent one and extraction falls
through to the next precedence step; in particular
`{output: "", response: "x"}` extracts `"x"`. -/
theorem c10_truthiness :
    (∀ p : Json, getFieldO p "output" = some (.str "") →
        extractRaw p = extractStepResponse p) ∧
    (∀ p : Json, getFieldO p "response" = some (.str "") →
        extractStepResponse p = extractStepMessages p) ∧
    extractRaw (.obj [("output", .str ""), ("response", .str "x")]) = .ok (.str "x") := by
  refine ⟨?_, ?_, rfl⟩
  · intro p h
    obtain ⟨fs, rfl⟩ := getFieldO_eq_some p _ _ h
    show extractStepOutput (.obj fs) = extractStepResponse (.obj fs)
    simp [extractStepOutput, h, truthy]
  · intro p h
    obtain ⟨fs, rfl⟩ := getFieldO_eq_some p _ _ h
    simp [extractStepResponse, h, truthy]

/-- Witness for C10 at the concrete `{output: "", response: "x"}`
payload. -/
theorem c10_truthiness_witness :
    extractRaw (.obj [("output", .str ""), ("response", .str "x")])
      = extractStepResponse (.obj [("output", .str ""), ("response", .str "x")]) :=
  c10_truthiness.1 _ rfl

theorem extractRaw_eq_stepOutput (p : Json) (h1 : isNullB p = false) (h2 : isStrB p = false) :
    extractRaw p = extractStepOutput p := by
  cases p <;> simp_all [extractRaw, isNullB, isStrB]

theorem stepOutput_fallthrough (p : Json) (h : truthyO (getFieldO p "output") = false) :
    extractStepOutput p = extractStepResponse p := by
  unfold extractStepOutput
  cases hg : getFieldO p "output" with
  | none => rfl
  | some v =>
      rw [hg] at h
      simp only [truthyO] at h
      simp [h]

theorem stepResponse_fallthrough (p : Json) (h : truthyO (getFieldO p "response") = false) :
    extractStepResponse p = extractStepMessages p := by
  unfold extractStepResponse
  cases hg : getFieldO p "response" with
  | none => rfl
  | some v =>
      rw [hg] at h
      simp only [truthyO] at h
      simp [h]

theorem stepMessages_arr (p : Json) (msgs : List Json)
    (h : getFieldO p "messages" = some (.arr msgs)) :
    extractStepMessages p = (msgsJoinE msgs).map Json.str := by
  unfold extractStepMessages
  rw [h]

theorem stepMessages_nonarr (p : Json) (h : isMsgsArr p = false) :
    extractStepMessages p = .ok (extractTail2 p) := by
  unfold extractStepMessages
  unfold isMsgsArr at h
  cases hg : getFieldO p "messages" with
  | none => rfl
  | some v =>
      rw [hg] at h
      cases v <;> simp_all

theorem msgPieceE_ok (m : Json) (h : isNullB m = false) :
    msgPieceE m = .ok (msgPieceSpec m) := by
  cases m with
  | null => simp [isNullB] at h
  | str s => rfl
  | _ =>
      simp only [msgPieceE, msgPieceSpec]
      split_ifs <;> rfl

theorem msgsJoinE_spec (msgs : List Json) (h : ∀ m ∈ msgs, isNullB m = false) :
    msgsJoinE msgs = .ok (joinWith "\n\n" (msgs.map msgPieceSpec)) := by
  induction msgs with
  | nil => rfl
  | cons m rest ih =>
      have hm := msgPieceE_ok m (h m (by simp))
      cases rest with
      | nil => simpa [msgsJoinE, joinWith] using hm
      | cons m2 rest2 =>
          have hrest := ih (fun x hx => h x (by simp [hx]))
          simp only [msgsJoinE, hm, hrest, bind, Except.bind, pure, Except.pure,
            List.map_cons, joinWith]

-- ========================================================================
-- C4 — single-payload extraction precedence
-- ========================================================================

/-- C4 (amended): for every single payload the extracted text follows the
stated precedence — bare string verbatim; else a truthy `output` field;
else a truthy `response` field; else an array-valued `messages` field
joined element-wise (string verbatim, else `content`, then `text`, then
`output`, else a structural dump) with a blank line between pieces; else a
pretty-printed dump when the object has at least one key; else the
placeholder — EXCEPT that the payload `null` (and a `null` element inside
`messages`) makes the extraction throw a `TypeError` instead of reaching
the placeholder, so those inputs are excluded here and refuted in the
counterexample.  `normalize({})` still yields exactly one message with the
placeholder text. -/
theorem c4_precedence_amended (p : Json) :
    (∀ s, p = .str s → extractRaw p = .ok (.str s)) ∧
    (∀ v, getFieldO p "output" = some v → truthy v = true → extractRaw p = .ok v) ∧
    (∀ v, truthyO (getFieldO p "output") = false → getFieldO p "response" = some v →
        truthy v = true → extractRaw p = .ok v) ∧
    (∀ msgs, truthyO (getFieldO p "output") = false →
        truthyO (getFieldO p "response") = false →
        getFieldO p "messages" = some (.arr msgs) →
        (∀ m ∈ msgs, isNullB m = false) →
        extractRaw p = .ok (.str (joinWith "\n\n" (msgs.map msgPieceSpec)))) ∧
    (isNullB p = false → isStrB p = false →
        truthyO (getFieldO p "output") = false →
        truthyO (getFieldO p "response") = false →
        isMsgsArr p = false → 0 < numKeys p →
        extractRaw p = .ok (.str (jsonStringifyPretty p))) ∧
    (isNullB p = false → isStrB p = false →
        truthyO (getFieldO p "output") = false →
        truthyO (getFieldO p "response") = false →
        isMsgsArr p = false → numKeys p = 0 →
        extractRaw p = .ok (.str "No response received")) ∧
    normalizePayload (.obj []) = .ok [⟨"No response received", "", ""⟩] := by
  refine ⟨?_, ?_, ?_, ?_, ?_, ?_, rfl⟩
  · rintro s rfl
    rfl
  · intro v h ht
    obtain ⟨fs, rfl⟩ := getFieldO_eq_some _ _ _ h
    rw [extractRaw_eq_stepOutput (Json.obj fs) rfl rfl]
    unfold extractStepOutput
    rw [h]
    simp [ht]
  · intro v ho h ht
    obtain ⟨fs, rfl⟩ := getFieldO_eq_some _ _ _ h
    rw [extractRaw_eq_stepOutput (Json.obj fs) rfl rfl, stepOutput_fallthrough _ ho]
    unfold extractStepResponse
    rw [h]
    simp [ht]
  · intro msgs ho hr h hnn
    obtain ⟨fs, rfl⟩ := getFieldO_eq_some _ _ _ h
    rw [extractRaw_eq_stepOutput (Json.obj fs) rfl rfl, stepOutput_fallthrough _ ho,
      stepResponse_fallthrough _ hr, stepMessages_arr _ _ h, msgsJoinE_spec _ hnn]
    rfl
  · intro hn hs ho hr hm hk
    rw [extractRaw_eq_stepOutput _ hn hs, stepOutput_fallthrough _ ho,
      stepResponse_fallthrough _ hr, stepMessages_nonarr _ hm]
    unfold extractTail2
    rw [if_pos hk]
  · intro hn hs ho hr hm hk
    rw [extractRaw_eq_stepOutput _ hn hs, stepOutput_fallthrough _ ho,
      stepResponse_fallthrough _ hr, stepMessages_nonarr _ hm]
    unfold extractTail2
    rw [if_neg (by omega)]

/-- C4 counterexample: the claim as stated promises the placeholder for any
payload matching none of the earlier steps, but normalizing the payload
`null` throws a `TypeError` (property read on `null`) instead of producing
a `DisplayMessage`. -/
theorem c4_counterexample :
    extractRaw Json.null = .error () ∧
    displayResponseMsg Json.null = .error () ∧
    normalizePayload Json.null = .error () ∧
    (Except.error () : Except Unit Json) ≠ .ok (.str "No response received") :=
  ⟨rfl, rfl, rfl, fun h => Except.noConfusion h⟩

/-- Witness for C4 at concrete payloads for the `output` step and the
structural-dump step. -/
theorem c4_precedence_amended_witness :
    extractRaw (.obj [("output", .str "x")]) = .ok (.str "x") ∧
    extractRaw (.obj [("note", .num 1)])
      = .ok (.str (jsonStringifyPretty (.obj [("note", .num 1)]))) :=
  ⟨(c4_precedence_amended _).2.1 (.str "x") rfl rfl,
   (c4_precedence_amended _).2.2.2.2.1 rfl rfl rfl rfl rfl (by decide)⟩

-- ========================================================================
-- C9 — cursor position 0 with a leading "@"
-- ========================================================================

/-- C9 counterexample: with text `"@s"`, cursor 0 and a one-agent roster,
the handler does NOT open an active suggestion list with the empty query
matching the whole roster — it computes the query `"@"` (because
`substring(1, 0)` swaps its endpoints) and closes the suggestions. -/
theorem c9_counterexample :
    handleInputChange "@s".toList 0 [⟨"strategy", "Strategy", "Strategist", "s.png"⟩]
        = MentionState.closed ∧
    MentionState.closed
        ≠ MentionState.active [] [⟨"strategy", "Strategy", "Strategist", "s.png"⟩] := by
  constructor
  · decide
  · decide

/-- C9 (amended): at cursor position 0 with a leading `"@"`, the backward
search (`lastIndexOf` with clamped negative start) does still find that
`"@"` as the anchor, but the extracted span `substring(1, 0)` swaps its
endpoints and yields the one-character query `"@"` — so the suggestion
list opens (with query `"@"`, not the empty query) only when some agent's
lowercased name or key contains `"@"`, and closes otherwise. -/
theorem c9_clamped_anchor_amended (rest : List Char) (agents : List Agent) :
    handleInputChange ('@' :: rest) 0 agents =
      (if (filterAgents agents ['@']).isEmpty then MentionState.closed
       else MentionState.active ['@'] (filterAgents agents ['@'])) := by
  have hA : jsLastIndexOf ('@' :: rest) '@' (((0 : Nat) : Int) - 1) = some 0 := by
    unfold jsLastIndexOf
    have ht : ((((0 : Nat) : Int)) - 1).toNat = 0 := by decide
    rw [ht]
    simp [lastIdxLe]
  have hSub : jsSubstring ('@' :: rest) (((0 : Nat) : Int) + 1) ((0 : Nat) : Int) = ['@'] := by
    unfold jsSubstring
    have h1 : ((((0 : Nat) : Int)) + 1).toNat = 1 := by decide
    have h0 : (((0 : Nat) : Int)).toNat = 0 := by decide
    rw [h1, h0]
    simp only [List.length_cons, Nat.zero_min, Nat.min_zero]
    have : min 1 (rest.length + 1) = 1 := by omega
    rw [this]
    simp
  have hLower : jsToLower ['@'] = ['@'] := by decide
  unfold handleInputChange
  rw [hA]
  dsimp only
  rw [hSub]
  simp only [hLower]
  rfl

theorem lastIdxLe_some (cs : List Char) (c : Char) :
    ∀ (n i : Nat), lastIdxLe cs c n = some i → cs.get? i = some c ∧ i ≤ n := by
  intro n
  induction n with
  | zero =>
      intro i h
      simp only [lastIdxLe] at h
      split at h
      · next hc => cases h; exact ⟨hc, Nat.le_refl 0⟩
      · cases h
  | succ n ih =>
      intro i h
      simp only [lastIdxLe] at h
      split at h
      · next hc => cases h; exact ⟨hc, Nat.le_refl _⟩
      · next _ =>
          obtain ⟨h1, h2⟩ := ih i h
          exact ⟨h1, h2.trans (Nat.le_succ n)⟩

theorem lastIdxLe_extend (cs : List Char) (c : Char) {n i : Nat}
    (h : lastIdxLe cs c n = some i) :
    ∀ m : Nat, n ≤ m → (∀ j, n < j → j ≤ m → cs.get? j ≠ some c) →
      lastIdxLe cs c m = some i := by
  intro m
  induction m with
  | zero =>
      intro hnm _
      have h0 : n = 0 := Nat.le_zero.mp hnm
      subst h0
      exact h
  | succ m ih =>
      intro hnm hnone
      rcases Nat.lt_or_ge n (m + 1) with hlt | hge
      · have hm : n ≤ m := Nat.lt_succ_iff.mp hlt
        have hstep := ih hm (fun j h1 h2 => hnone j h1 (h2.trans (Nat.le_succ m)))
        simp only [lastIdxLe]
        rw [if_neg (by simpa using hnone (m + 1) (by omega) (Nat.le_refl _))]
        exact hstep
      · have heq : n = m + 1 := Nat.le_antisymm hnm hge
        subst heq
        exact h

-- ========================================================================
-- C1 — commit in autocomplete mode
-- ========================================================================

/-- C1 counterexample: with text `"@a x@b"` and cursor 2, the suggestion
list is active (query `"a"`), but committing `Alice` does NOT replace the
span from the anchor `"@"` (index 0) through the cursor — the code anchors
at `text.lastIndexOf("@")` over the whole text (index 4, which lies after
the cursor), producing `"@a x@Alice  x@b"` with cursor 11 instead of the
claimed `"@Alice  x@b"` with cursor 7. -/
theorem c1_counterexample :
    handleInputChange "@a x@b".toList 2 [⟨"alice", "Alice", "r", "a.png"⟩]
        = MentionState.active ['a'] [⟨"alice", "Alice", "r", "a.png"⟩] ∧
    selectAgent true "@a x@b".toList 2 "Alice".toList ≠ ("@Alice  x@b".toList, 7) ∧
    selectAgent true "@a x@b".toList 2 "Alice".toList = ("@a x@Alice  x@b".toList, 11) := by
  refine ⟨by decide, by decide, by decide⟩

/-- C1 (amended): committing a mention in autocomplete mode replaces the
span from the query's anchor `"@"` through the cursor with
`"@" + agent.name + " "`, puts the cursor right after the inserted
trailing space, and preserves the text after the original cursor — but
only under the extra proviso that no `"@"` occurs at or after the cursor
(the code anchors at `lastIndexOf("@")` over the whole text, which then
coincides with the query's anchor; the counterexample shows the claim
fails without the proviso). -/
theorem c1_commit_amended (text : List Char) (cursorPos : Nat) (name : List Char) (a : Nat)
    (ha : jsLastIndexOf text '@' ((cursorPos : Int) - 1) = some a)
    (hno : '@' ∉ text.drop cursorPos)
    (hcur : cursorPos ≤ text.length) :
    selectAgent true text cursorPos name
      = (text.take a ++ '@' :: name ++ ' ' :: text.drop cursorPos, a + name.length + 2) := by
  unfold jsLastIndexOf at ha
  have hspec := lastIdxLe_some text '@' _ _ ha
  have hgetA : text.get? a = some '@' := hspec.1
  have haLT : a < text.length := (List.get?_eq_some.mp hgetA).1
  by_cases h0 : cursorPos = 0
  · exact absurd (List.get?_mem hgetA) (by simpa [h0] using hno)
  · have hb : ((cursorPos : Int) - 1).toNat = cursorPos - 1 := by omega
    rw [hb] at hspec
    have hnoneUp : ∀ j, cursorPos - 1 < j → j ≤ text.length → text.get? j ≠ some '@' := by
      intro j h1 _ hc
      have hjc : cursorPos ≤ j := by omega
      have hmem : '@' ∈ text.drop cursorPos := by
        have hd : (text.drop cursorPos).get? (j - cursorPos) = some '@' := by
          rw [List.get?_drop]
          rw [show cursorPos + (j - cursorPos) = j from by omega]
          exact hc
        exact List.get?_mem hd
      exact absurd hmem hno
    have hfull : lastIdxLe text '@' text.length = some a := by
      rw [hb] at ha
      exact lastIdxLe_extend text '@' ha text.length (by omega) hnoneUp
    have hsub1 : jsSubstring text 0 (a : Int) = text.take a := by
      unfold jsSubstring
      simp only [Int.toNat_natCast, Int.toNat_zero, Nat.zero_min, Nat.min_zero, Nat.max_zero,
        Nat.zero_max, List.drop_zero]
      rw [Nat.min_eq_left haLT.le]
    have hsub2 : jsSubstring text (cursorPos : Int) ((text.length : Nat) : Int)
        = text.drop cursorPos := by
      unfold jsSubstring
      simp only [Int.toNat_natCast]
      rw [Nat.min_eq_left hcur, Nat.min_self, Nat.max_eq_right hcur, Nat.min_eq_left hcur,
        List.take_length]
    unfold selectAgent jsLastIndexOf
    simp only [if_true, Int.toNat_natCast]
    rw [hfull]
    dsimp only
    rw [hsub1, hsub2, List.length_take, Nat.min_eq_left haLT.le]

/-- Witness for C1 at a concrete commit (`"hi @Str"`, cursor 7, agent name
`Strategy`). -/
theorem c1_commit_amended_witness :
    selectAgent true "hi @Str".toList 7 "Strategy".toList = ("hi @Strategy ".toList, 13) := by
  have h := c1_commit_amended "hi @Str".toList 7 "Strategy".toList 3 (by decide) (by decide)
    (by decide)
  exact h.trans (by decide)

-- ========================================================================
-- C2 — failures and the Idle state
-- ========================================================================

theorem displayResponseState_flags (st : AppState) (r : Json) (st2 : AppState)
    (h : displayResponseState st r = .ok st2) :
    st2.loadingShown = st.loadingShown ∧ st2.sendBtnDisabled = st.sendBtnDisabled := by
  unfold displayResponseState at h
  cases hv : extractRaw r with
  | error e => simp [hv, bind, Except.bind] at h
  | ok v =>
      simp only [hv, bind, Except.bind] at h
      split at h <;> (cases h; exact ⟨rfl, rfl⟩)

theorem runDisplayList_flags (rs : List Json) :
    ∀ st : AppState,
      (runDisplayList st rs).1.loadingShown = st.loadingShown ∧
      (runDisplayList st rs).1.sendBtnDisabled = st.sendBtnDisabled := by
  induction rs with
  | nil => intro st; exact ⟨rfl, rfl⟩
  | cons r rest ih =>
      intro st
      unfold runDisplayList
      cases hd : displayResponseState st r with
      | ok st2 =>
          have hf := displayResponseState_flags st r st2 hd
          exact ⟨(ih st2).1.trans hf.1, (ih st2).2.trans hf.2⟩
      | error e => exact ⟨rfl, rfl⟩

theorem appDispatch_flags (st : AppState) (result : Json) :
    (appDispatch st result).loadingShown = st.loadingShown ∧
    (appDispatch st result).sendBtnDisabled = st.sendBtnDisabled := by
  unfold appDispatch
  cases result with
  | null => exact ⟨rfl, rfl⟩
  | _ =>
      dsimp only
      split
      · next rs _ =>
          rcases hr : runDisplayList st rs with ⟨st2, b⟩
          have hf := runDisplayList_flags rs st
          rw [hr] at hf
          cases b <;> exact ⟨hf.1, hf.2⟩
      · next =>
          split
          · next st2 hd => exact (displayResponseState_flags _ _ _ hd).imp id id
          · next => exact ⟨rfl, rfl⟩

/-- C2 (amended): in the app.js variant every fetch outcome — transport
error, non-success status, unparseable body, even a payload whose
normalization throws — ends the cycle back in Idle: the `finally` block
re-enables submit and every path removes the loading placeholder, and
nothing escapes the controller.  In the part_000 variant this holds for
non-success statuses, but a transport-level error propagates out of
`sendQuestion` (there is no try/catch), leaving the submit control
disabled and the loading placeholder in place. -/
theorem c2_failure_idle_amended :
    (∀ (st : AppState) (outcome : FetchOutcome), jsTrim st.inputValue ≠ "" →
        (sendQuestionApp st outcome).sendBtnDisabled = false ∧
        (sendQuestionApp st outcome).loadingShown = false) ∧
    (∀ (st : AppState) (status : Nat) (stext body : String), jsTrim st.inputValue ≠ "" →
        (sendQuestionStream st (.response false status stext body)).2 = false ∧
        (sendQuestionStream st (.response false status stext body)).1.sendBtnDisabled = false ∧
        (sendQuestionStream st (.response false status stext body)).1.loadingShown = false) ∧
    (∀ (st : AppState) (m : String), jsTrim st.inputValue ≠ "" →
        (sendQuestionStream st (.netError m)).2 = true ∧
        (sendQuestionStream st (.netError m)).1.sendBtnDisabled = true ∧
        (sendQuestionStream st (.netError m)).1.loadingShown = true) := by
  refine ⟨?_, ?_, ?_⟩
  · intro st outcome h
    unfold sendQuestionApp
    rw [if_neg h]
    refine ⟨rfl, ?_⟩
    cases outcome with
    | netError emsg => rfl
    | response ok status stext body =>
        cases ok with
        | true => exact ((appDispatch_flags _ _).1.trans rfl)
        | false => rfl
  · intro st status stext body h
    unfold sendQuestionStream
    rw [if_neg h]
    exact ⟨rfl, rfl, rfl⟩
  · intro st m h
    unfold sendQuestionStream
    rw [if_neg h]
    exact ⟨rfl, rfl, rfl⟩

/-- C2 counterexample: in the part_000 variant a transport failure during a
real send cycle (non-empty input) escapes the controller with the submit
button still disabled and the loading placeholder still shown — the
controller does not return to Idle. -/
theorem c2_counterexample :
    (sendQuestionStream ⟨[], [], "hi", false, false⟩ (.netError "Failed to fetch")).2 = true ∧
    (sendQuestionStream ⟨[], [], "hi", false, false⟩
        (.netError "Failed to fetch")).1.sendBtnDisabled = true ∧
    (sendQuestionStream ⟨[], [], "hi", false, false⟩
        (.netError "Failed to fetch")).1.loadingShown = true := by
  exact ⟨rfl, rfl, rfl⟩

/-- Witness for C2 at a concrete transport failure in the app.js variant. -/
theorem c2_failure_idle_amended_witness :
    (sendQuestionApp ⟨[], [], "hi", false, false⟩ (.netError "Failed to fetch")).sendBtnDisabled
        = false ∧
    (sendQuestionApp ⟨[], [], "hi", false, false⟩ (.netError "Failed to fetch")).loadingShown
        = false :=
  c2_failure_idle_amended.1 ⟨[], [], "hi", false, false⟩ (.netError "Failed to fetch")
    (by decide)

-- ========================================================================
-- C6 — non-success status: error display and history retention
-- ========================================================================

theorem containsL_infix (needle hay pre post : List Char)
    (h : pre ++ needle ++ post = hay) : containsL needle hay = true := by
  rw [containsL_iff]
  exact ⟨pre, post, h⟩

theorem mem_pushTurn_self (conv : List Turn) (t : Turn) : t ∈ pushTurn conv t := by
  rw [pushTurn_eq_drop]
  have hd : (conv.length + 1) - MAX_CONVERSATION_LENGTH ≤ conv.length := by
    have h1 : 1 ≤ MAX_CONVERSATION_LENGTH := by simp [MAX_CONVERSATION_LENGTH]
    omega
  rw [List.drop_append_eq_append_drop, Nat.sub_eq_zero_of_le hd, List.drop_zero]
  exact List.mem_append_right _ (by simp)

theorem sendQuestionApp_err_mem (st : AppState) (status : Nat) (stext body : String)
    (h : jsTrim st.inputValue ≠ "") :
    (⟨"assistant",
        "Error: " ++ toString status ++ " - "
          ++ (if appErrorText stext body ≠ "" then appErrorText stext body
              else "Unknown error"),
        false⟩ : ChatEntry)
      ∈ (sendQuestionApp st (.response false status stext body)).chatLog := by
  unfold sendQuestionApp
  rw [if_neg h]
  dsimp only
  simp [addMessage]

theorem sendQuestionApp_err_turn (st : AppState) (status : Nat) (stext body : String)
    (h : jsTrim st.inputValue ≠ "") :
    (⟨"user", jsTrim st.inputValue⟩ : Turn)
      ∈ (sendQuestionApp st (.response false status stext body)).conversation := by
  unfold sendQuestionApp
  rw [if_neg h]
  dsimp only
  exact mem_pushTurn_self _ _

/-- C6 (amended): for every non-success status, the user's turn appended
before the failure stays in the history (no rollback) in both variants.
In the app.js variant the displayed error bubble always includes the
status code, and its body text is the extraction
`errorData.detail || errorData.message || JSON.stringify(errorData)`: a
truthy `detail` field is displayed, a falsy/absent `detail` falls back to
a truthy `message` field, and both are included alongside the status.
The part_000 variant displays only `"Error: " + status` without any
extracted body text (refuted by the counterexample). -/
theorem c6_error_detail_amended :
    (∀ (st : AppState) (status : Nat) (stext body d : String) (fs : List (String × Json)),
        jsTrim st.inputValue ≠ "" →
        jsonParse body = some (.obj fs) →
        lookupField fs "detail" = some (.str d) →
        d ≠ "" →
        (⟨"assistant", "Error: " ++ toString status ++ " - " ++ d, false⟩ : ChatEntry)
            ∈ (sendQuestionApp st (.response false status stext body)).chatLog ∧
          containsL (toString status).toList
              ("Error: " ++ toString status ++ " - " ++ d).toList = true ∧
          containsL d.toList ("Error: " ++ toString status ++ " - " ++ d).toList = true ∧
          (⟨"user", jsTrim st.inputValue⟩ : Turn)
              ∈ (sendQuestionApp st (.response false status stext body)).conversation) ∧
    (∀ (st : AppState) (status : Nat) (stext body m : String) (fs : List (String × Json)),
        jsTrim st.inputValue ≠ "" →
        jsonParse body = some (.obj fs) →
        truthyO (getFieldO (Json.obj fs) "detail") = false →
        lookupField fs "message" = some (.str m) →
        m ≠ "" →
        (⟨"assistant", "Error: " ++ toString status ++ " - " ++ m, false⟩ : ChatEntry)
            ∈ (sendQuestionApp st (.response false status stext body)).chatLog ∧
          containsL (toString status).toList
              ("Error: " ++ toString status ++ " - " ++ m).toList = true ∧
          containsL m.toList ("Error: " ++ toString status ++ " - " ++ m).toList = true ∧
          (⟨"user", jsTrim st.inputValue⟩ : Turn)
              ∈ (sendQuestionApp st (.response false status stext body)).conversation) ∧
    (∀ (st : AppState) (status : Nat) (stext body : String),
        jsTrim st.inputValue ≠ "" →
        (⟨"assistant",
            "Error: " ++ toString status ++ " - "
              ++ (if appErrorText stext body ≠ "" then appErrorText stext body
                  else "Unknown error"),
            false⟩ : ChatEntry)
            ∈ (sendQuestionApp st (.response false status stext body)).chatLog ∧
          containsL (toString status).toList
              ("Error: " ++ toString status ++ " - "
                ++ (if appErrorText stext body ≠ "" then appErrorText stext body
                    else "Unknown error")).toList = true ∧
          (⟨"user", jsTrim st.inputValue⟩ : Turn)
              ∈ (sendQuestionApp st (.response false status stext body)).conversation) ∧
    (∀ (st : AppState) (status : Nat) (stext body : String),
        jsTrim st.inputValue ≠ "" →
        (⟨"assistant", "Error: " ++ toString status, false⟩ : ChatEntry)
            ∈ (sendQuestionStream st (.response false status stext body)).1.chatLog ∧
          (⟨"user", jsTrim st.inputValue⟩ : Turn)
              ∈ (sendQuestionStream st (.response false status stext body)).1.conversation) := by
  refine ⟨?_, ?_, ?_, ?_⟩
  · intro st status stext body d fs h hp hdetail hdne
    have herr : appErrorText stext body = d := by
      unfold appErrorText
      rw [hp]
      show errorBodyText (.obj fs) = d
      unfold errorBodyText
      have hg : getFieldO (Json.obj fs) "detail" = some (.str d) := by
        simpa [getFieldO] using hdetail
      rw [hg]
      simp [truthyO, truthy, hdne, jsToStringO, jsToString]
    refine ⟨?_, ?_, ?_, sendQuestionApp_err_turn st status stext body h⟩
    · have hm := sendQuestionApp_err_mem st status stext body h
      rw [herr] at hm
      simpa [hdne] using hm
    · refine containsL_infix _ _ "Error: ".toList (" - " ++ d).toList ?_
      simp [String.toList, String.append_assoc]
    · refine containsL_infix _ _ ("Error: " ++ toString status ++ " - ").toList [] ?_
      simp [String.toList, String.append_assoc]
  · intro st status stext body m fs h hp htf hmsg hmne
    have herr : appErrorText stext body = m := by
      unfold appErrorText
      rw [hp]
      show errorBodyText (.obj fs) = m
      unfold errorBodyText
      rw [htf]
      have hg : getFieldO (Json.obj fs) "message" = some (.str m) := by
        simpa [getFieldO] using hmsg
      rw [hg]
      simp [truthyO, truthy, hmne, jsToStringO, jsToString]
    refine ⟨?_, ?_, ?_, sendQuestionApp_err_turn st status stext body h⟩
    · have hm := sendQuestionApp_err_mem st status stext body h
      rw [herr] at hm
      simpa [hmne] using hm
    · refine containsL_infix _ _ "Error: ".toList (" - " ++ m).toList ?_
      simp [String.toList, String.append_assoc]
    · refine containsL_infix _ _ ("Error: " ++ toString status ++ " - ").toList [] ?_
      simp [String.toList, String.append_assoc]
  · intro st status stext body h
    refine ⟨sendQuestionApp_err_mem st status stext body h, ?_,
      sendQuestionApp_err_turn st status stext body h⟩
    refine containsL_infix _ _ "Error: ".toList
      ((" - " ++ (if appErrorText stext body ≠ "" then appErrorText stext body
        else "Unknown error"))).toList ?_
    simp [String.toList, String.append_assoc]
  · intro st status stext body h
    constructor
    · unfold sendQuestionStream
      rw [if_neg h]
      dsimp only
      simp [addMessage]
    · unfold sendQuestionStream
      rw [if_neg h]
      dsimp only
      exact mem_pushTurn_self _ _

/-- C6 counterexample: in the part_000 variant, a 500 response with body
`{"detail":"boom"}` displays `"Error: 500"` and NO displayed message
contains `"boom"` — the claim that the display includes the extracted
detail text fails on this variant. -/
theorem c6_counterexample :
    ((sendQuestionStream ⟨[], [], "hi", false, false⟩
          (.response false 500 "Internal Server Error"
            "\x7b\"detail\":\"boom\"\x7d")).1.chatLog.all
        (fun e => !containsL "boom".toList e.content.toList)) = true ∧
    (⟨"assistant", "Error: 500", false⟩ : ChatEntry)
        ∈ (sendQuestionStream ⟨[], [], "hi", false, false⟩
            (.response false 500 "Internal Server Error"
              "\x7b\"detail\":\"boom\"\x7d")).1.chatLog := by
  exact ⟨by decide, by decide⟩

/-- Witness for C6 at the concrete scenarios: status 500 with body
`{"detail":"boom"}`, and status 500 with body `{"message":"oops"}` (the
`message` fallback), both in the app.js variant. -/
theorem c6_error_detail_amended_witness :
    (⟨"assistant", "Error: " ++ toString 500 ++ " - " ++ "boom", false⟩ : ChatEntry)
        ∈ (sendQuestionApp ⟨[], [], "hi", false, false⟩
            (.response false 500 "Internal Server Error"
              "\x7b\"detail\":\"boom\"\x7d")).chatLog ∧
    (⟨"assistant", "Error: " ++ toString 500 ++ " - " ++ "oops", false⟩ : ChatEntry)
        ∈ (sendQuestionApp ⟨[], [], "hi", false, false⟩
            (.response false 500 "Internal Server Error"
              "\x7b\"message\":\"oops\"\x7d")).chatLog :=
  ⟨(c6_error_detail_amended.1 ⟨[], [], "hi", false, false⟩ 500 "Internal Server Error"
      "\x7b\"detail\":\"boom\"\x7d" "boom" [("detail", .str "boom")]
      (by decide) (by rfl) (by rfl) (by decide)).1,
   (c6_error_detail_amended.2.1 ⟨[], [], "hi", false, false⟩ 500 "Internal Server Error"
      "\x7b\"message\":\"oops\"\x7d" "oops" [("message", .str "oops")]
      (by decide) (by rfl) (by rfl) (by rfl) (by decide)).1⟩

/-- Witness for C7: the empty query keeps a concrete one-agent roster. -/
theorem c7_filter_exact_witness :
    filterAgents [⟨"strategy", "Strategy", "Strategist", "s.png"⟩] []
      = [⟨"strategy", "Strategy", "Strategist", "s.png"⟩] :=
  (c7_filter_exact [⟨"strategy", "Strategy", "Strategist", "s.png"⟩] "".toList).2.2

/-- Witness for C9 at the concrete roster without an `"@"` in any name or
key. -/
theorem c9_clamped_anchor_amended_witness :
    handleInputChange ('@' :: "s".toList) 0 [⟨"strategy", "Strategy", "Strategist", "s.png"⟩]
      = MentionState.closed :=
  (c9_clamped_anchor_amended "s".toList
      [⟨"strategy", "Strategy", "Strategist", "s.png"⟩]).trans (by decide)
